import Mathlib

/-!
Shallow embedding of the stock / cart / order core of the
eCommerceDsNodeExpress_TypeScriptMongoDB repository.

The embedded code lives in:
* `src/src/models/Record.ts` (RecordSchema: canonical `stock` field plus the
  deprecated `Stock` field declared with `select: false`),
* the Cart model (`CartSchema`, `recalculateTotal`),
* `recordService.updateStock`,
* `cartService` (`createCart`, `addItemToCart`, `removeItemFromCart`,
  `removeItemFromCartByEmail`, `clearCart`, `getCartByUserId`),
* `orderService.createOrder` and `ordersController.createOrder`.

Modelling conventions:
* Mongo ObjectIds are `Nat`.  `CartSchema.userId` carries a unique index, so a
  user owns at most one cart document; carts are therefore keyed by `userId`
  and a cart's `_id` is identified with its owner's id.
* JavaScript numbers are modelled as `Rat`.  The only rounding the embedded
  code performs is `Math.round(x * 100) / 100`, modelled exactly by `round2`.
* A Mongo collection is an association list `List (Nat × doc)`; `findById` /
  `findOne` return the first entry with the key, `save` / `updateOne` on a
  fetched document replace that entry, and saving a brand new document appends.
* A service function that can `throw` returns `Except String α × DB`; the
  returned `DB` is the persisted state at the moment of return (mutations
  performed before a throw are kept, exactly as in the source, which uses no
  transactions).
-/

/-- A `Record` document (the product).  `stock` is the canonical lower-case
field (required, default 0 in `RecordSchema`), `Stock` the deprecated
capitalised field (`RecordSchema` line 55, `select: false`); `none` means the
field is absent or holds a non-numeric value (NaN). -/
structure RecordDoc where
  title : String
  imageRecord : String
  price : Rat
  stock : Rat
  Stock : Option Rat
  deriving Repr, DecidableEq

/-- A cart line item (`CartItemSchema`); `title`/`image` are the denormalized
`recordDetails` fields. -/
structure CartItem where
  recordId : Nat
  amount : Rat
  price : Rat
  title : String
  image : String
  deriving Repr, DecidableEq

/-- A `Cart` document (`CartSchema`). -/
structure CartDoc where
  userId : Nat
  userEmail : Option String
  items : List CartItem
  totalPrice : Rat
  enabled : Bool
  deriving Repr, DecidableEq

/-- The slice of a `User` document the cart/order code reads and writes. -/
structure UserDoc where
  userEmail : String
  cartId : Option Nat
  deriving Repr, DecidableEq

/-- An order line item (snapshot of a cart item at conversion time). -/
structure OrderItem where
  recordId : Nat
  amount : Rat
  price : Rat
  title : String
  image : String
  deriving Repr, DecidableEq

/-- An `Order` document.  `orderDate` (a wall-clock default) is not modelled;
no embedded operation reads it. -/
structure OrderDoc where
  userId : Nat
  userEmail : String
  items : List OrderItem
  total : Rat
  paymentMethod : String
  deriving Repr, DecidableEq

/-- The persisted state: the four Mongo collections used by the core. -/
structure DB where
  users : List (Nat × UserDoc)
  records : List (Nat × RecordDoc)
  carts : List (Nat × CartDoc)
  orders : List OrderDoc
  deriving Repr, DecidableEq

/-- `findById` / `findOne` on a keyed collection: first entry with the key. -/
def findAssoc {α : Type} (k : Nat) : List (Nat × α) → Option α
  | [] => none
  | (k1, v) :: rest => if k1 = k then some v else findAssoc k rest

/-- `save` / `updateOne` on a fetched document: replace the entry (a no-op when
the key is absent, as for Mongoose `updateOne` with no match). -/
def replaceAssoc {α : Type} (k : Nat) (v : α) : List (Nat × α) → List (Nat × α)
  | [] => []
  | (k1, v1) :: rest =>
    if k1 = k then (k1, v) :: replaceAssoc k v rest
    else (k1, v1) :: replaceAssoc k v rest

/-- `save` that inserts when the document is new and replaces otherwise. -/
def saveAssoc {α : Type} (k : Nat) (v : α) (l : List (Nat × α)) : List (Nat × α) :=
  if (findAssoc k l).isSome then replaceAssoc k v l else l ++ [(k, v)]

/-- `User.findOne({ userEmail: email })`: first user with the given email. -/
def findUserByEmail (db : DB) (email : String) : Option (Nat × UserDoc) :=
  go db.users
where
  go : List (Nat × UserDoc) → Option (Nat × UserDoc)
    | [] => none
    | (k, u) :: rest => if u.userEmail = email then some (k, u) else go rest

/-- `Cart.findOne({ userId, enabled: true })` (userId is unique in CartSchema). -/
def findEnabledCart (db : DB) (userId : Nat) : Option CartDoc :=
  match findAssoc userId db.carts with
  | some c => if c.enabled then some c else none
  | none => none

/-- `Cart.findOne({ userId, enabled: false })`. -/
def findDisabledCart (db : DB) (userId : Nat) : Option CartDoc :=
  match findAssoc userId db.carts with
  | some c => if c.enabled then none else some c
  | none => none

/-- JavaScript `Math.round` (half away from zero rounds up, i.e. floor(x+1/2)). -/
def jsRound (q : Rat) : Int := Int.floor (q + 1 / 2)

/-- `Math.round(x * 100) / 100`: round to 2 decimal places. -/
def round2 (q : Rat) : Rat := (jsRound (q * 100) : Rat) / 100

/-- The sum `Σ item.amount * item.price`.  This is both the `reduce` inside
`cartService.addItemToCart` and `CartSchema.methods.recalculateTotal` (the
`Number(..) || 0` and `typeof` guards in the source are the identity on
well-typed numeric fields, and the `isNaN` guard never fires over `Rat`). -/
def cartItemsTotal (items : List CartItem) : Rat :=
  items.foldl (fun acc it => acc + it.amount * it.price) 0

/-- `cartService.getCartByUserId`: the user's enabled cart.  (The source also
populates display fields and reshapes the result; amounts, prices, totalPrice
and enabled are returned unchanged, which is all the claims read.) -/
def getCartByUserId (db : DB) (userId : Nat) : Option CartDoc :=
  findEnabledCart db userId

/-- `cartService.createCart`: verify the user exists, return an existing
enabled cart, else re-enable a disabled cart (items cleared, total reset),
else insert a fresh empty enabled cart and point `user.cartId` at it. -/
def createCart (db : DB) (userId : Nat) : Except String CartDoc × DB :=
  match findAssoc userId db.users with
  | none => (.error "User not found", db)
  | some user =>
    match findEnabledCart db userId with
    | some existingCart => (.ok existingCart, db)
    | none =>
      match findDisabledCart db userId with
      | some disabledCart =>
        let cart := { disabledCart with enabled := true, items := [], totalPrice := 0 }
        (.ok cart, { db with carts := replaceAssoc userId cart db.carts })
      | none =>
        let newCart : CartDoc :=
          { userId := userId, userEmail := none, items := [], totalPrice := 0, enabled := true }
        let db1 := { db with carts := saveAssoc userId newCart db.carts }
        let db2 :=
          { db1 with users := replaceAssoc userId { user with cartId := some userId } db1.users }
        (.ok newCart, db2)

/-- `cart.items.findIndex(item => item.recordId.toString() === recordId)`,
returning the found item. -/
def findFirstItem (recordId : Nat) : List CartItem → Option CartItem
  | [] => none
  | it :: rest => if it.recordId = recordId then some it else findFirstItem recordId rest

/-- The `existingItemIndex !== -1` branch of `addItemToCart`: on the first item
matching `recordId`, add `amount` to its amount, refresh `price` and the
denormalized `recordDetails`. -/
def addToFirstItem (recordId : Nat) (amount price : Rat) (title image : String) :
    List CartItem → List CartItem
  | [] => []
  | it :: rest =>
    if it.recordId = recordId then
      { it with amount := it.amount + amount, price := price,
                title := title, image := image } :: rest
    else it :: addToFirstItem recordId amount price title image rest

/-- The find-or-create-cart section of `addItemToCart`: take the user's
enabled cart, else re-enable a disabled one with items cleared and total
reset, else construct a fresh cart carrying the caller's email. -/
def findOrCreateCartDoc (db : DB) (userId : Nat) (userEmail : String) : CartDoc :=
  match findAssoc userId db.carts with
  | some c =>
    if c.enabled then c else { c with enabled := true, items := [], totalPrice := 0 }
  | none =>
    { userId := userId, userEmail := some userEmail, items := [],
      totalPrice := 0, enabled := true }

/-- The update-or-push section of `addItemToCart`: when a line item for the
record exists, add to it (refreshing price and denormalized details), else
push a new line item. -/
def addItemToItems (recordId : Nat) (amount : Rat) (record : RecordDoc)
    (items : List CartItem) : List CartItem :=
  match findFirstItem recordId items with
  | some _ =>
    addToFirstItem recordId amount record.price record.title record.imageRecord items
  | none =>
    items ++
      [{ recordId := recordId, amount := amount, price := record.price,
         title := record.title, image := record.imageRecord }]

/-- `cartService.addItemToCart`, with an explicit injection point for the final
`cart.save()`: when `cartPersistOk = false` the cart save rejects (a storage
failure); the `catch` block only logs and rethrows, so the already-saved stock
decrement is kept and the carts collection is untouched. -/
def addItemToCartAux (cartPersistOk : Bool) (db : DB) (userId recordId : Nat)
    (amount : Rat) (userEmail : String) : Except String CartDoc × DB :=
  match findAssoc recordId db.records with
  | none => (.error "Record not found", db)
  | some record =>
    if record.stock < amount then (.error "Not enough stock", db)
    else
      let cart := findOrCreateCartDoc db userId userEmail
      let items := addItemToItems recordId amount record cart.items
      -- recalculate total price, rounded to 2 decimal places
      let totalPrice := round2 (cartItemsTotal items)
      let cart := { cart with items := items, totalPrice := totalPrice }
      -- decrease stock and save the record, then save the cart
      let db :=
        { db with records :=
            replaceAssoc recordId { record with stock := record.stock - amount } db.records }
      if cartPersistOk then (.ok cart, { db with carts := saveAssoc userId cart db.carts })
      else (.error "Failed to save cart", db)

/-- `cartService.addItemToCart` with the cart save succeeding. -/
def addItemToCart (db : DB) (userId recordId : Nat) (amount : Rat)
    (userEmail : String) : Except String CartDoc × DB :=
  addItemToCartAux true db userId recordId amount userEmail

/-- The mutation `removeItemFromCartByEmail` performs on the item list: on the
first item matching `recordId`, remove it when its amount equals `amount`,
otherwise decrease its amount by `amount`. -/
def removeAmountFromFirst (recordId : Nat) (amount : Rat) :
    List CartItem → List CartItem
  | [] => []
  | it :: rest =>
    if it.recordId = recordId then
      if it.amount = amount then rest
      else { it with amount := it.amount - amount } :: rest
    else it :: removeAmountFromFirst recordId amount rest

/-- `cartService.removeItemFromCartByEmail`. -/
def removeItemFromCartByEmail (db : DB) (email : String) (recordId : Nat)
    (amount : Rat) : Except String CartDoc × DB :=
  match findUserByEmail db email with
  | none => (.error "User not found with this email", db)
  | some (userId, _) =>
    match findEnabledCart db userId with
    | none => (.error "Cart not found for this user", db)
    | some cart =>
      match findFirstItem recordId cart.items with
      | none => (.error "Item not found in cart", db)
      | some itemToRemove =>
        if itemToRemove.amount < amount then
          (.error "Cannot remove more items than are in the cart", db)
        else
          -- update stock (skipped when the record no longer exists)
          let db :=
            match findAssoc recordId db.records with
            | some record =>
              let record := { record with stock := record.stock + amount }
              { db with records := replaceAssoc recordId record db.records }
            | none => db
          let items := removeAmountFromFirst recordId amount cart.items
          let cart := { cart with items := items, totalPrice := cartItemsTotal items }
          (.ok cart, { db with carts := replaceAssoc userId cart db.carts })

/-- The `splice(itemIndex, 1)` applied to the first item matching `recordId`. -/
def removeFirstItem (recordId : Nat) : List CartItem → List CartItem
  | [] => []
  | it :: rest => if it.recordId = recordId then rest else it :: removeFirstItem recordId rest

/-- `cartService.removeItemFromCart` (whole-line removal).  The stock write is
`updateOne` with `$set stock := currentStock + removedItem.amount` and
`$unset Stock`; in this model `stock` is always numeric so the `Stock`
fallback read is the identity. -/
def removeItemFromCart (db : DB) (userId recordId : Nat) : Except String CartDoc × DB :=
  match findEnabledCart db userId with
  | none => (.error "Cart not found", db)
  | some cart =>
    match findFirstItem recordId cart.items with
    | none => (.error "Item not found in cart", db)
    | some removedItem =>
      let db :=
        match findAssoc recordId db.records with
        | some record =>
          let record :=
            { record with stock := record.stock + removedItem.amount, Stock := none }
          { db with records := replaceAssoc recordId record db.records }
        | none => db
      let items := removeFirstItem recordId cart.items
      let cart := { cart with items := items, totalPrice := cartItemsTotal items }
      (.ok cart, { db with carts := replaceAssoc userId cart db.carts })

/-- The stock-return loop of `cartService.clearCart`.  The source executes
`record.Stock += item.amount`: `Stock` is declared `select: false` in
`RecordSchema`, so on the fetched document it reads as `undefined`, and
`undefined + amount` is `NaN` — a non-numeric value, modelled as `none`.
The canonical `stock` field is left untouched. -/
def clearCartStockLoop (db : DB) (items : List CartItem) : DB :=
  items.foldl
    (fun db it =>
      match findAssoc it.recordId db.records with
      | some record =>
        { db with records := replaceAssoc it.recordId { record with Stock := none } db.records }
      | none => db)
    db

/-- `cartService.clearCart`. -/
def clearCart (db : DB) (userId : Nat) : Except String CartDoc × DB :=
  match findEnabledCart db userId with
  | none => createCart db userId
  | some cart =>
    let db := clearCartStockLoop db cart.items
    let cart := { cart with items := [], totalPrice := cartItemsTotal [] }
    (.ok cart, { db with carts := replaceAssoc userId cart db.carts })

/-- `recordService.updateStock`: `amount` is a signed delta.  In this model
`record.stock` is always numeric (required with default 0 in the schema), so
the `Stock` fallback read and the `typeof` check are the identity.  A negative
delta larger in magnitude than the current stock throws; otherwise the new
value is written with `$set stock` and `$unset Stock`. -/
def updateStock (db : DB) (id : Nat) (amount : Rat) : Except String Rat × DB :=
  match findAssoc id db.records with
  | none => (.error "Record not found", db)
  | some record =>
    let currentStock := record.stock
    if amount < 0 ∧ currentStock < -amount then
      (.error "Cannot decrease stock below current stock", db)
    else
      let newStockValue := currentStock + amount
      (.ok newStockValue,
        { db with records :=
            replaceAssoc id { record with stock := newStockValue, Stock := none } db.records })

/-- `orderService.createOrder`: snapshot the cart items and total into a new
order, insert it, then `findByIdAndUpdate` the cart to
`{ items: [], totalPrice: 0, enabled: false }`.  (A cart's `_id` is identified
with its owner's `userId`, see module header.) -/
def orderCreateOrder (db : DB) (userId : Nat) (userEmail : String) (cart : CartDoc)
    (paymentMethod : String) : Except String OrderDoc × DB :=
  if cart.items.isEmpty then (.error "Cannot create an order from an empty cart.", db)
  else
    let orderItems := cart.items.map fun it =>
      ({ recordId := it.recordId, amount := it.amount, price := it.price,
         title := it.title, image := it.image } : OrderItem)
    let total := cart.totalPrice
    let order : OrderDoc :=
      { userId := userId, userEmail := userEmail, items := orderItems,
        total := total, paymentMethod := paymentMethod }
    let db := { db with orders := db.orders ++ [order] }
    let db :=
      match findAssoc cart.userId db.carts with
      | some stored =>
        let stored := { stored with items := [], totalPrice := 0, enabled := false }
        { db with carts := replaceAssoc cart.userId stored db.carts }
      | none => db
    (.ok order, db)

/-- `ordersController.createOrder`: resolve the user by email, read the active
cart, reject an empty cart, create the order, then call
`cartService.clearCart` on the (just disabled) cart. -/
def ordersControllerCreateOrder (db : DB) (email paymentMethod : String) :
    Except String OrderDoc × DB :=
  match findUserByEmail db email with
  | none => (.error "User not found", db)
  | some (userId, user) =>
    match getCartByUserId db userId with
    | none => (.error "Cannot create an order from an empty cart.", db)
    | some cart =>
      if cart.items.isEmpty then (.error "Cannot create an order from an empty cart.", db)
      else
        match orderCreateOrder db userId user.userEmail cart paymentMethod with
        | (.error e, db1) => (.error e, db1)
        | (.ok order, db1) =>
          match clearCart db1 userId with
          | (.error e, db2) => (.error e, db2)
          | (.ok _, db2) => (.ok order, db2)

/-! ## Association list lemmas -/

theorem findAssoc_mem {α : Type} {k : Nat} {l : List (Nat × α)} {v : α}
    (h : findAssoc k l = some v) : (k, v) ∈ l := by
  induction l with
  | nil => simp [findAssoc] at h
  | cons p rest ih =>
    obtain ⟨k1, v1⟩ := p
    simp only [findAssoc] at h
    split at h
    · next heq => cases h; exact heq ▸ List.mem_cons_self _ _
    · exact List.mem_cons_of_mem _ (ih h)

theorem findAssoc_replaceAssoc_self {α : Type} {k : Nat} {v : α} {l : List (Nat × α)}
    (h : (findAssoc k l).isSome) : findAssoc k (replaceAssoc k v l) = some v := by
  induction l with
  | nil => simp [findAssoc] at h
  | cons p rest ih =>
    obtain ⟨k1, v1⟩ := p
    by_cases heq : k1 = k
    · simp [findAssoc, replaceAssoc, heq]
    · simp only [findAssoc, replaceAssoc, if_neg heq] at h ⊢
      exact ih h

theorem findAssoc_replaceAssoc_of_ne {α : Type} {k k1 : Nat} {v : α} {l : List (Nat × α)}
    (h : k1 ≠ k) : findAssoc k1 (replaceAssoc k v l) = findAssoc k1 l := by
  induction l with
  | nil => rfl
  | cons p rest ih =>
    obtain ⟨k2, v2⟩ := p
    simp only [replaceAssoc]
    by_cases h2 : k2 = k
    · subst h2
      rw [if_pos rfl]
      simp only [findAssoc, if_neg (Ne.symm h)]
      exact ih
    · rw [if_neg h2]
      simp only [findAssoc]
      by_cases h4 : k2 = k1
      · rw [if_pos h4, if_pos h4]
      · rw [if_neg h4, if_neg h4]
        exact ih

theorem findAssoc_append_of_none {α : Type} {k : Nat} {l1 : List (Nat × α)}
    (h : findAssoc k l1 = none) (l2 : List (Nat × α)) :
    findAssoc k (l1 ++ l2) = findAssoc k l2 := by
  induction l1 with
  | nil => rfl
  | cons p rest ih =>
    obtain ⟨k1, v1⟩ := p
    simp only [findAssoc] at h
    split at h
    · cases h
    · next hne =>
      simp only [List.cons_append, findAssoc, if_neg hne]
      exact ih h

theorem findAssoc_append_singleton_of_ne {α : Type} {k k1 : Nat} {v : α} {l : List (Nat × α)}
    (h : k1 ≠ k) : findAssoc k1 (l ++ [(k, v)]) = findAssoc k1 l := by
  induction l with
  | nil => simp only [List.nil_append, findAssoc, if_neg (Ne.symm h)]
  | cons p rest ih =>
    obtain ⟨k2, v2⟩ := p
    simp only [List.cons_append, findAssoc]
    split
    · rfl
    · exact ih

theorem findAssoc_saveAssoc_self {α : Type} (k : Nat) (v : α) (l : List (Nat × α)) :
    findAssoc k (saveAssoc k v l) = some v := by
  unfold saveAssoc
  split
  · next h => exact findAssoc_replaceAssoc_self h
  · next h =>
    have hnone : findAssoc k l = none := by
      cases hf : findAssoc k l
      · rfl
      · rw [hf] at h; simp at h
    rw [findAssoc_append_of_none hnone]
    simp [findAssoc]

theorem findAssoc_saveAssoc_of_ne {α : Type} {k k1 : Nat} (v : α) (l : List (Nat × α))
    (h : k1 ≠ k) : findAssoc k1 (saveAssoc k v l) = findAssoc k1 l := by
  unfold saveAssoc
  split
  · exact findAssoc_replaceAssoc_of_ne h
  · exact findAssoc_append_singleton_of_ne h

theorem mem_replaceAssoc {α : Type} {p : Nat × α} {k : Nat} {v : α} {l : List (Nat × α)}
    (h : p ∈ replaceAssoc k v l) : p.2 = v ∨ p ∈ l := by
  induction l with
  | nil => simp [replaceAssoc] at h
  | cons q rest ih =>
    obtain ⟨k1, v1⟩ := q
    simp only [replaceAssoc] at h
    split at h
    · rcases List.mem_cons.mp h with h1 | h1
      · left; rw [h1]
      · rcases ih h1 with h2 | h2
        · exact Or.inl h2
        · exact Or.inr (List.mem_cons_of_mem _ h2)
    · rcases List.mem_cons.mp h with h1 | h1
      · exact Or.inr (h1 ▸ List.mem_cons_self _ _)
      · rcases ih h1 with h2 | h2
        · exact Or.inl h2
        · exact Or.inr (List.mem_cons_of_mem _ h2)

theorem mem_saveAssoc {α : Type} {p : Nat × α} {k : Nat} {v : α} {l : List (Nat × α)}
    (h : p ∈ saveAssoc k v l) : p.2 = v ∨ p ∈ l := by
  unfold saveAssoc at h
  split at h
  · exact mem_replaceAssoc h
  · rcases List.mem_append.mp h with h1 | h1
    · exact Or.inr h1
    · left; simp only [List.mem_singleton] at h1; rw [h1]

/-! ## Invariants for the stock claims -/

/-- Every product's canonical `stock` field is non-negative. -/
def stocksNonneg (db : DB) : Prop := ∀ p ∈ db.records, 0 ≤ (p.2).stock

/-- Every cart line item has a non-negative amount (the CartItem schema
requires `min 1`; non-negativity is all the stock argument needs). -/
def cartAmountsNonneg (db : DB) : Prop := ∀ p ∈ db.carts, ∀ it ∈ (p.2).items, 0 ≤ it.amount

instance (db : DB) : Decidable (stocksNonneg db) := by
  unfold stocksNonneg; infer_instance

instance (db : DB) : Decidable (cartAmountsNonneg db) := by
  unfold cartAmountsNonneg; infer_instance

/-! ## Item list lemmas -/

theorem findFirstItem_mem {rid : Nat} {l : List CartItem} {it : CartItem}
    (h : findFirstItem rid l = some it) : it ∈ l := by
  induction l with
  | nil => simp [findFirstItem] at h
  | cons x rest ih =>
    simp only [findFirstItem] at h
    split at h
    · cases h; exact List.mem_cons_self _ _
    · exact List.mem_cons_of_mem _ (ih h)

theorem amounts_addToFirstItem {rid : Nat} {a p : Rat} {t i : String} {l : List CartItem}
    (hl : ∀ it ∈ l, 0 ≤ it.amount) (ha : 0 ≤ a) :
    ∀ it ∈ addToFirstItem rid a p t i l, 0 ≤ it.amount := by
  induction l with
  | nil => intro it hit; simp [addToFirstItem] at hit
  | cons x rest ih =>
    intro it hit
    simp only [addToFirstItem] at hit
    split at hit
    · rcases List.mem_cons.mp hit with h1 | h1
      · subst h1
        have := hl x (List.mem_cons_self _ _)
        dsimp only
        linarith
      · exact hl it (List.mem_cons_of_mem _ h1)
    · rcases List.mem_cons.mp hit with h1 | h1
      · exact h1 ▸ hl x (List.mem_cons_self _ _)
      · exact ih (fun j hj => hl j (List.mem_cons_of_mem _ hj)) it h1

theorem amounts_removeAmountFromFirst {rid : Nat} {a : Rat} {l : List CartItem}
    {it0 : CartItem} (hl : ∀ it ∈ l, 0 ≤ it.amount)
    (hfind : findFirstItem rid l = some it0) (ha : a ≤ it0.amount) :
    ∀ it ∈ removeAmountFromFirst rid a l, 0 ≤ it.amount := by
  induction l with
  | nil => intro it hit; simp [removeAmountFromFirst] at hit
  | cons x rest ih =>
    intro it hit
    simp only [findFirstItem] at hfind
    simp only [removeAmountFromFirst] at hit
    split at hit
    · next hmatch =>
      rw [if_pos hmatch] at hfind
      cases hfind
      split at hit
      · exact hl it (List.mem_cons_of_mem _ hit)
      · rcases List.mem_cons.mp hit with h1 | h1
        · subst h1; dsimp only; linarith
        · exact hl it (List.mem_cons_of_mem _ h1)
    · next hmatch =>
      rw [if_neg hmatch] at hfind
      rcases List.mem_cons.mp hit with h1 | h1
      · exact h1 ▸ hl x (List.mem_cons_self _ _)
      · exact ih (fun j hj => hl j (List.mem_cons_of_mem _ hj)) hfind it h1

theorem amounts_removeFirstItem {rid : Nat} {l : List CartItem}
    (hl : ∀ it ∈ l, 0 ≤ it.amount) :
    ∀ it ∈ removeFirstItem rid l, 0 ≤ it.amount := by
  induction l with
  | nil => intro it hit; simp [removeFirstItem] at hit
  | cons x rest ih =>
    intro it hit
    simp only [removeFirstItem] at hit
    split at hit
    · exact hl it (List.mem_cons_of_mem _ hit)
    · rcases List.mem_cons.mp hit with h1 | h1
      · exact h1 ▸ hl x (List.mem_cons_self _ _)
      · exact ih (fun j hj => hl j (List.mem_cons_of_mem _ hj)) it h1

/-! ## Invariant preservation per operation -/

theorem updateStock_preserves (db : DB) (id : Nat) (a : Rat)
    (hs : stocksNonneg db) (hc : cartAmountsNonneg db) :
    stocksNonneg (updateStock db id a).2 ∧ cartAmountsNonneg (updateStock db id a).2 := by
  unfold updateStock
  cases hfind : findAssoc id db.records with
  | none => exact ⟨hs, hc⟩
  | some record =>
    simp only
    by_cases hcond : a < 0 ∧ record.stock < -a
    · rw [if_pos hcond]
      exact ⟨hs, hc⟩
    · rw [if_neg hcond]
      constructor
      · intro p hp
        dsimp only at hp
        rcases mem_replaceAssoc hp with h1 | h1
        · rw [h1]
          have h0 : 0 ≤ record.stock := hs _ (findAssoc_mem hfind)
          dsimp only
          rcases not_and_or.mp hcond with h2 | h2
          · push_neg at h2; linarith
          · push_neg at h2; linarith
        · exact hs p h1
      · exact hc

theorem findOrCreateCartDoc_amounts (db : DB) (u : Nat) (e : String)
    (hc : cartAmountsNonneg db) :
    ∀ it ∈ (findOrCreateCartDoc db u e).items, 0 ≤ it.amount := by
  unfold findOrCreateCartDoc
  cases hcart : findAssoc u db.carts with
  | none => intro it hit; simp at hit
  | some c =>
    simp only
    by_cases hen : c.enabled
    · rw [if_pos hen]
      exact hc _ (findAssoc_mem hcart)
    · rw [if_neg hen]
      intro it hit; simp at hit

theorem addItemToItems_amounts {r : Nat} {a : Rat} {record : RecordDoc}
    {items : List CartItem} (h : ∀ it ∈ items, 0 ≤ it.amount) (ha : 0 ≤ a) :
    ∀ it ∈ addItemToItems r a record items, 0 ≤ it.amount := by
  unfold addItemToItems
  cases hfind : findFirstItem r items with
  | some it0 => exact amounts_addToFirstItem h ha
  | none =>
    intro it hit
    rcases List.mem_append.mp hit with h1 | h1
    · exact h it h1
    · simp only [List.mem_singleton] at h1
      rw [h1]
      exact ha

theorem addItemToCartAux_preserves (pok : Bool) (db : DB) (u r : Nat) (a : Rat)
    (e : String) (ha : 0 ≤ a) (hs : stocksNonneg db) (hc : cartAmountsNonneg db) :
    stocksNonneg (addItemToCartAux pok db u r a e).2 ∧
      cartAmountsNonneg (addItemToCartAux pok db u r a e).2 := by
  unfold addItemToCartAux
  cases hfind : findAssoc r db.records with
  | none => exact ⟨hs, hc⟩
  | some record =>
    simp only
    by_cases hstock : record.stock < a
    · rw [if_pos hstock]
      exact ⟨hs, hc⟩
    · rw [if_neg hstock]
      have hrec : ∀ p ∈ replaceAssoc r { record with stock := record.stock - a } db.records,
          0 ≤ (p.2).stock := by
        intro p hp
        rcases mem_replaceAssoc hp with h1 | h1
        · rw [h1]
          have h0 : 0 ≤ record.stock := hs _ (findAssoc_mem hfind)
          dsimp only
          push_neg at hstock
          linarith
        · exact hs p h1
      have hitems : ∀ it ∈ addItemToItems r a record (findOrCreateCartDoc db u e).items,
          0 ≤ it.amount :=
        addItemToItems_amounts (findOrCreateCartDoc_amounts db u e hc) ha
      cases pok with
      | false => exact ⟨hrec, hc⟩
      | true =>
        refine ⟨hrec, ?_⟩
        intro p hp
        rcases mem_saveAssoc hp with h1 | h1
        · rw [h1]
          exact hitems
        · exact hc p h1

theorem findEnabledCart_mem {db : DB} {u : Nat} {cart : CartDoc}
    (h : findEnabledCart db u = some cart) : (u, cart) ∈ db.carts := by
  unfold findEnabledCart at h
  cases hf : findAssoc u db.carts with
  | none => rw [hf] at h; cases h
  | some c =>
    rw [hf] at h
    dsimp only at h
    by_cases hen : c.enabled
    · rw [if_pos hen] at h; cases h; exact findAssoc_mem hf
    · rw [if_neg hen] at h; cases h

theorem removeItemFromCartByEmail_preserves (db : DB) (email : String) (r : Nat)
    (a : Rat) (ha : 0 ≤ a) (hs : stocksNonneg db) (hc : cartAmountsNonneg db) :
    stocksNonneg (removeItemFromCartByEmail db email r a).2 ∧
      cartAmountsNonneg (removeItemFromCartByEmail db email r a).2 := by
  unfold removeItemFromCartByEmail
  cases huser : findUserByEmail db email with
  | none => exact ⟨hs, hc⟩
  | some p =>
    obtain ⟨u, user⟩ := p
    simp only
    cases hcart : findEnabledCart db u with
    | none => exact ⟨hs, hc⟩
    | some cart =>
      simp only
      cases hitem : findFirstItem r cart.items with
      | none => exact ⟨hs, hc⟩
      | some itemToRemove =>
        simp only
        by_cases hlt : itemToRemove.amount < a
        · rw [if_pos hlt]
          exact ⟨hs, hc⟩
        · rw [if_neg hlt]
          have hitems0 : ∀ it ∈ cart.items, 0 ≤ it.amount :=
            hc _ (findEnabledCart_mem hcart)
          have hitems : ∀ it ∈ removeAmountFromFirst r a cart.items, 0 ≤ it.amount :=
            amounts_removeAmountFromFirst hitems0 hitem (le_of_not_lt hlt)
          cases hrec : findAssoc r db.records with
          | none =>
            refine ⟨hs, ?_⟩
            intro p hp
            rcases mem_replaceAssoc hp with h1 | h1
            · rw [h1]; exact hitems
            · exact hc p h1
          | some record =>
            constructor
            · intro p hp
              dsimp only at hp
              rcases mem_replaceAssoc hp with h1 | h1
              · rw [h1]
                have h0 : 0 ≤ record.stock := hs _ (findAssoc_mem hrec)
                dsimp only
                linarith
              · exact hs p h1
            · intro p hp
              dsimp only at hp
              rcases mem_replaceAssoc hp with h1 | h1
              · rw [h1]; exact hitems
              · exact hc p h1

theorem removeItemFromCart_preserves (db : DB) (u r : Nat)
    (hs : stocksNonneg db) (hc : cartAmountsNonneg db) :
    stocksNonneg (removeItemFromCart db u r).2 ∧
      cartAmountsNonneg (removeItemFromCart db u r).2 := by
  unfold removeItemFromCart
  cases hcart : findEnabledCart db u with
  | none => exact ⟨hs, hc⟩
  | some cart =>
    simp only
    cases hitem : findFirstItem r cart.items with
    | none => exact ⟨hs, hc⟩
    | some removedItem =>
      simp only
      have hitems0 : ∀ it ∈ cart.items, 0 ≤ it.amount :=
        hc _ (findEnabledCart_mem hcart)
      have hremnn : 0 ≤ removedItem.amount := hitems0 _ (findFirstItem_mem hitem)
      have hitems : ∀ it ∈ removeFirstItem r cart.items, 0 ≤ it.amount :=
        amounts_removeFirstItem hitems0
      cases hrec : findAssoc r db.records with
      | none =>
        refine ⟨hs, ?_⟩
        intro p hp
        rcases mem_replaceAssoc hp with h1 | h1
        · rw [h1]; exact hitems
        · exact hc p h1
      | some record =>
        constructor
        · intro p hp
          dsimp only at hp
          rcases mem_replaceAssoc hp with h1 | h1
          · rw [h1]
            have h0 : 0 ≤ record.stock := hs _ (findAssoc_mem hrec)
            dsimp only
            linarith
          · exact hs p h1
        · intro p hp
          dsimp only at hp
          rcases mem_replaceAssoc hp with h1 | h1
          · rw [h1]; exact hitems
          · exact hc p h1

/-! ## The sequential stock-mutating operations of claim C1 -/

/-- A stock-mutating operation: `recordService.updateStock` (signed delta,
Reserve = negative / Release = positive), `cartService.addItemToCart`
(Reserve), and the two item-removal functions (Release). -/
inductive StockOp where
  | updStock (id : Nat) (amount : Rat)
  | addItem (userId recordId : Nat) (amount : Rat) (userEmail : String)
  | removeItemByEmail (email : String) (recordId : Nat) (amount : Rat)
  | removeItem (userId recordId : Nat)

/-- The input validation the HTTP layer performs before the service runs:
`cartsController.addItem` and `cartsController.removeItemFromCartByEmail`
reject `amount <= 0` with a 400; `recordsController.updateStock` accepts any
numeric (signed) amount, and whole-line removal carries no amount. -/
def StockOp.valid : StockOp → Prop
  | .updStock _ _ => True
  | .addItem _ _ a _ => 0 < a
  | .removeItemByEmail _ _ a => 0 < a
  | .removeItem _ _ => True

instance (op : StockOp) : Decidable op.valid := by
  cases op <;> simp only [StockOp.valid] <;> infer_instance

/-- Run one operation against the persisted state (a thrown error leaves the
state as it was at the moment of the throw). -/
def applyStockOp (db : DB) : StockOp → DB
  | .updStock id a => (updateStock db id a).2
  | .addItem u r a e => (addItemToCart db u r a e).2
  | .removeItemByEmail e r a => (removeItemFromCartByEmail db e r a).2
  | .removeItem u r => (removeItemFromCart db u r).2

theorem applyStockOp_preserves (db : DB) (op : StockOp) (hv : op.valid)
    (hs : stocksNonneg db) (hc : cartAmountsNonneg db) :
    stocksNonneg (applyStockOp db op) ∧ cartAmountsNonneg (applyStockOp db op) := by
  cases op with
  | updStock id a => exact updateStock_preserves db id a hs hc
  | addItem u r a e =>
    exact addItemToCartAux_preserves true db u r a e (le_of_lt hv) hs hc
  | removeItemByEmail e r a =>
    exact removeItemFromCartByEmail_preserves db e r a (le_of_lt hv) hs hc
  | removeItem u r => exact removeItemFromCart_preserves db u r hs hc

/-- C1: for every product record and every sequence of sequential
stock-mutating operations (`recordService.updateStock` as Reserve/Release,
`cartService.addItemToCart` as Reserve, item removal as Release) with
controller-validated inputs, every record's `stock` stays non-negative: each
decrement is guarded at its point of execution by a check that the current
stock covers the requested amount, and a decrement that would drive stock
negative is rejected there (`Not enough stock` / `Cannot decrease stock`),
never corrected afterwards. -/
theorem stock_nonneg_preserved (ops : List StockOp) (db : DB)
    (hv : ∀ op ∈ ops, op.valid) (hs : stocksNonneg db) (hc : cartAmountsNonneg db) :
    stocksNonneg (ops.foldl applyStockOp db) ∧
      cartAmountsNonneg (ops.foldl applyStockOp db) := by
  induction ops generalizing db with
  | nil => exact ⟨hs, hc⟩
  | cons op rest ih =>
    have h1 := applyStockOp_preserves db op (hv op (List.mem_cons_self _ _)) hs hc
    exact ih (applyStockOp db op) (fun o ho => hv o (List.mem_cons_of_mem _ ho)) h1.1 h1.2

/-- Concrete run for `stock_nonneg_preserved`: stock 5, a reserve of 3 via
AddItem, a rejected over-reserve via updateStock, a release via RemoveItem. -/
def c1Db : DB :=
  { users := [(1, { userEmail := "ada@shop.io", cartId := none })],
    records := [(10, { title := "LP", imageRecord := "", price := 10, stock := 5, Stock := none })],
    carts := [], orders := [] }

def c1Ops : List StockOp :=
  [.addItem 1 10 3 "ada@shop.io", .updStock 10 (-7), .updStock 10 (-2),
   .removeItemByEmail "ada@shop.io" 10 3]

/-- Witness for `stock_nonneg_preserved` at a concrete run. -/
theorem stock_nonneg_preserved_witness :
    (∀ op ∈ c1Ops, op.valid) ∧ stocksNonneg c1Db ∧ cartAmountsNonneg c1Db ∧
      stocksNonneg (c1Ops.foldl applyStockOp c1Db) :=
  ⟨by decide, by decide, by decide,
    (stock_nonneg_preserved c1Ops c1Db (by decide) (by decide) (by decide)).1⟩

/-! ## totalPrice recomputation (claim C2) -/

theorem addItemToCart_totalPrice {db : DB} {u r : Nat} {a : Rat} {e : String}
    {c : CartDoc} (h : (addItemToCart db u r a e).1 = Except.ok c) :
    c.totalPrice = round2 (cartItemsTotal c.items) := by
  unfold addItemToCart addItemToCartAux at h
  cases hfind : findAssoc r db.records with
  | none => rw [hfind] at h; cases h
  | some record =>
    rw [hfind] at h
    dsimp only at h
    by_cases hstock : record.stock < a
    · rw [if_pos hstock] at h; cases h
    · rw [if_neg hstock] at h
      cases h
      rfl

theorem removeItemFromCartByEmail_totalPrice {db : DB} {email : String} {r : Nat}
    {a : Rat} {c : CartDoc}
    (h : (removeItemFromCartByEmail db email r a).1 = Except.ok c) :
    c.totalPrice = cartItemsTotal c.items := by
  unfold removeItemFromCartByEmail at h
  cases h1 : findUserByEmail db email with
  | none => rw [h1] at h; cases h
  | some p =>
    obtain ⟨u, user⟩ := p
    rw [h1] at h
    dsimp only at h
    cases h2 : findEnabledCart db u with
    | none => rw [h2] at h; cases h
    | some cart =>
      rw [h2] at h
      dsimp only at h
      cases h3 : findFirstItem r cart.items with
      | none => rw [h3] at h; cases h
      | some itemToRemove =>
        rw [h3] at h
        dsimp only at h
        by_cases h4 : itemToRemove.amount < a
        · rw [if_pos h4] at h; cases h
        · rw [if_neg h4] at h
          cases h5 : findAssoc r db.records with
          | none => rw [h5] at h; dsimp only at h; cases h; rfl
          | some record => rw [h5] at h; dsimp only at h; cases h; rfl

theorem removeItemFromCart_totalPrice {db : DB} {u r : Nat} {c : CartDoc}
    (h : (removeItemFromCart db u r).1 = Except.ok c) :
    c.totalPrice = cartItemsTotal c.items := by
  unfold removeItemFromCart at h
  cases h1 : findEnabledCart db u with
  | none => rw [h1] at h; cases h
  | some cart =>
    rw [h1] at h
    dsimp only at h
    cases h2 : findFirstItem r cart.items with
    | none => rw [h2] at h; cases h
    | some removedItem =>
      rw [h2] at h
      dsimp only at h
      cases h
      rfl

theorem clearCart_totalPrice {db : DB} {u : Nat} {c : CartDoc}
    (h : (clearCart db u).1 = Except.ok c) :
    c.totalPrice = cartItemsTotal c.items := by
  unfold clearCart at h
  cases h1 : findEnabledCart db u with
  | some cart => rw [h1] at h; dsimp only at h; cases h; rfl
  | none =>
    rw [h1] at h
    dsimp only at h
    unfold createCart at h
    cases h2 : findAssoc u db.users with
    | none => rw [h2] at h; cases h
    | some user =>
      rw [h2] at h
      dsimp only at h
      rw [h1] at h
      dsimp only at h
      cases h3 : findDisabledCart db u with
      | some dc => rw [h3] at h; dsimp only at h; cases h; rfl
      | none => rw [h3] at h; dsimp only at h; cases h; rfl

/-- C2 (amended): after every successful cart mutation the stored/returned
cart's `totalPrice` is recomputed from scratch over all of its line items —
never incrementally patched — but `addItemToCart` stores the sum rounded to 2
decimal places (`Math.round(x*100)/100`), while the removal and clear paths
(which use `recalculateTotal`) store the exact sum. -/
theorem totalPrice_recomputed_on_every_mutation :
    (∀ db u r a e c, (addItemToCart db u r a e).1 = Except.ok c →
        c.totalPrice = round2 (cartItemsTotal c.items)) ∧
    (∀ db email r a c, (removeItemFromCartByEmail db email r a).1 = Except.ok c →
        c.totalPrice = cartItemsTotal c.items) ∧
    (∀ db u r c, (removeItemFromCart db u r).1 = Except.ok c →
        c.totalPrice = cartItemsTotal c.items) ∧
    (∀ db u c, (clearCart db u).1 = Except.ok c →
        c.totalPrice = cartItemsTotal c.items) :=
  ⟨fun _ _ _ _ _ _ h => addItemToCart_totalPrice h,
   fun _ _ _ _ _ h => removeItemFromCartByEmail_totalPrice h,
   fun _ _ _ _ h => removeItemFromCart_totalPrice h,
   fun _ _ _ h => clearCart_totalPrice h⟩

/-- A catalog with a price of 0.005 (three decimal places). -/
def c2Db : DB :=
  { users := [(1, { userEmail := "ada@shop.io", cartId := none })],
    records :=
      [(11, { title := "Odd", imageRecord := "", price := 1 / 200, stock := 5, Stock := none })],
    carts := [], orders := [] }

/-- The cart `addItemToCart c2Db 1 11 1 _` produces: the stored total is the
rounded 0.01, not the exact sum 0.005. -/
def c2Cart : CartDoc :=
  { userId := 1, userEmail := some "ada@shop.io",
    items := [{ recordId := 11, amount := 1, price := 1 / 200, title := "Odd", image := "" }],
    totalPrice := 1 / 100, enabled := true }

/-- C2 counterexample: after `AddItem` of one unit of a product priced 0.005,
the stored `totalPrice` is 0.01 (the 2-decimal rounding), which differs from
the exact sum `Σ item.amount * item.price = 0.005` — refuting the claim that
`totalPrice` equals the exact sum after every mutation. -/
theorem totalPrice_exact_sum_counterexample :
    (addItemToCart c2Db 1 11 1 "ada@shop.io").1 = Except.ok c2Cart ∧
      c2Cart.totalPrice ≠ cartItemsTotal c2Cart.items := by
  constructor
  · norm_num [addItemToCart, addItemToCartAux, c2Db, c2Cart, findAssoc,
      findOrCreateCartDoc, addItemToItems, findFirstItem, cartItemsTotal,
      round2, jsRound, saveAssoc, replaceAssoc]
  · norm_num [c2Cart, cartItemsTotal]

/-- Witness for `totalPrice_recomputed_on_every_mutation` at a concrete input. -/
theorem totalPrice_recomputed_witness :
    c2Cart.totalPrice = round2 (cartItemsTotal c2Cart.items) :=
  totalPrice_recomputed_on_every_mutation.1 c2Db 1 11 1 "ada@shop.io" c2Cart
    (by norm_num [addItemToCart, addItemToCartAux, c2Db, c2Cart, findAssoc,
      findOrCreateCartDoc, addItemToItems, findFirstItem, cartItemsTotal,
      round2, jsRound, saveAssoc, replaceAssoc])

/-! ## Insufficient stock / excess removal (claims C5, C6) -/

/-- C5: when the requested amount exceeds the product's current stock,
`cartService.addItemToCart` throws `Not enough stock` and returns with the
persisted state exactly as it was: no cart and no record was touched. -/
theorem addItem_insufficient_stock_no_side_effect (db : DB) (u r : Nat) (a : Rat)
    (e : String) (rec : RecordDoc) (hrec : findAssoc r db.records = some rec)
    (hlt : rec.stock < a) :
    addItemToCart db u r a e = (Except.error "Not enough stock", db) := by
  unfold addItemToCart addItemToCartAux
  rw [hrec]
  dsimp only
  rw [if_pos hlt]

def c5Rec : RecordDoc :=
  { title := "LP", imageRecord := "", price := 10, stock := 5, Stock := none }

def c5Db : DB :=
  { users := [(1, { userEmail := "ada@shop.io", cartId := none })],
    records := [(10, c5Rec)], carts := [], orders := [] }

/-- Witness for `addItem_insufficient_stock_no_side_effect`: stock 5, request 9. -/
theorem addItem_insufficient_stock_witness :
    addItemToCart c5Db 1 10 9 "ada@shop.io" = (Except.error "Not enough stock", c5Db) :=
  addItem_insufficient_stock_no_side_effect c5Db 1 10 9 "ada@shop.io" c5Rec rfl (by decide)

/-- C6: when the requested removal amount strictly exceeds the line item's
current amount, `cartService.removeItemFromCartByEmail` throws before any
mutation: the persisted state is returned exactly as it was. -/
theorem removeItem_excess_removal_no_side_effect (db : DB) (email : String) (r : Nat)
    (a : Rat) (u : Nat) (user : UserDoc) (cart : CartDoc) (item : CartItem)
    (huser : findUserByEmail db email = some (u, user))
    (hcart : findEnabledCart db u = some cart)
    (hitem : findFirstItem r cart.items = some item)
    (hlt : item.amount < a) :
    removeItemFromCartByEmail db email r a =
      (Except.error "Cannot remove more items than are in the cart", db) := by
  unfold removeItemFromCartByEmail
  rw [huser]
  dsimp only
  rw [hcart]
  dsimp only
  rw [hitem]
  dsimp only
  rw [if_pos hlt]

def c6User : UserDoc := { userEmail := "ada@shop.io", cartId := some 1 }

def c6Item : CartItem :=
  { recordId := 10, amount := 2, price := 10, title := "LP", image := "" }

def c6Cart : CartDoc :=
  { userId := 1, userEmail := some "ada@shop.io", items := [c6Item],
    totalPrice := 20, enabled := true }

def c6Db : DB :=
  { users := [(1, c6User)],
    records := [(10, c5Rec)],
    carts := [(1, c6Cart)], orders := [] }

/-- Witness for `removeItem_excess_removal_no_side_effect`: the cart holds
`{P, amount: 2, price: 10}` and removal of 3 is requested. -/
theorem removeItem_excess_removal_witness :
    removeItemFromCartByEmail c6Db "ada@shop.io" 10 3 =
      (Except.error "Cannot remove more items than are in the cart", c6Db) :=
  removeItem_excess_removal_no_side_effect c6Db "ada@shop.io" 10 3 1 c6User c6Cart
    c6Item rfl rfl rfl (by decide)

/-! ## updateStock semantics (claim C8) -/

/-- C8 (amended): `recordService.updateStock` treats `amount` as a signed
delta and performs no positive-integer validation: it throws only when
`amount < 0` and `|amount|` exceeds the current stock (and then mutates
nothing); every other amount — including zero and in-range negative values —
succeeds and writes `stock := stock + amount` (also clearing the deprecated
`Stock` field). -/
theorem updateStock_signed_delta_semantics (db : DB) (id : Nat) (a : Rat)
    (rec : RecordDoc) (hrec : findAssoc id db.records = some rec) :
    (a < 0 ∧ rec.stock < -a →
      updateStock db id a = (Except.error "Cannot decrease stock below current stock", db)) ∧
    (¬(a < 0 ∧ rec.stock < -a) →
      updateStock db id a =
        (Except.ok (rec.stock + a),
         { db with records :=
             replaceAssoc id { rec with stock := rec.stock + a, Stock := none } db.records })) := by
  constructor <;> intro h <;> unfold updateStock <;> rw [hrec] <;> dsimp only
  · rw [if_pos h]
  · rw [if_neg h]

def c8Db : DB :=
  { users := [], records := [(10, c5Rec)], carts := [], orders := [] }

/-- C8 counterexample: a zero amount and an in-range negative amount both
succeed (`updateStock` returns `ok`), refuting the claim that zero or
negative requested amounts fail with an invalid-argument error. -/
theorem updateStock_zero_amount_succeeds :
    (updateStock c8Db 10 0).1 = Except.ok 5 ∧
      (updateStock c8Db 10 (-2)).1 = Except.ok 3 := by
  constructor <;>
    norm_num [updateStock, c8Db, c5Rec, findAssoc, replaceAssoc]

/-- Witness for `updateStock_signed_delta_semantics`: an over-large decrement
is rejected with no mutation. -/
theorem updateStock_signed_delta_witness :
    updateStock c8Db 10 (-7) =
      (Except.error "Cannot decrease stock below current stock", c8Db) :=
  (updateStock_signed_delta_semantics c8Db 10 (-7) c5Rec rfl).1 (by norm_num [c5Rec])

/-! ## clearCart with no enabled cart (claim C10) -/

theorem findDisabledCart_findAssoc {db : DB} {u : Nat} {c : CartDoc}
    (h : findDisabledCart db u = some c) : findAssoc u db.carts = some c := by
  unfold findDisabledCart at h
  cases hf : findAssoc u db.carts with
  | none => rw [hf] at h; cases h
  | some c1 =>
    rw [hf] at h
    dsimp only at h
    by_cases hen : c1.enabled
    · rw [if_pos hen] at h; cases h
    · rw [if_neg hen] at h; cases h; rfl

/-- C10: `cartService.clearCart` for an existing user with no enabled cart does
not fail: it returns a cart that is empty, has `totalPrice` 0 and is enabled
(a disabled cart is re-enabled in place, otherwise a fresh cart is inserted),
the returned cart is the one persisted for the user, and the records
collection — hence every product's stock — is untouched. -/
theorem clearCart_without_enabled_cart (db : DB) (u : Nat) (user : UserDoc)
    (huser : findAssoc u db.users = some user)
    (hnocart : ∀ c, findAssoc u db.carts = some c → c.enabled = false) :
    ((clearCart db u).1.toOption.map (fun c => c.items)) = some [] ∧
    ((clearCart db u).1.toOption.map (fun c => c.totalPrice)) = some 0 ∧
    ((clearCart db u).1.toOption.map (fun c => c.enabled)) = some true ∧
    (clearCart db u).2.records = db.records ∧
    findAssoc u (clearCart db u).2.carts = (clearCart db u).1.toOption := by
  have hec : findEnabledCart db u = none := by
    unfold findEnabledCart
    cases hf : findAssoc u db.carts with
    | none => rfl
    | some c =>
      dsimp only
      rw [hnocart c hf]
      rfl
  unfold clearCart
  rw [hec]
  unfold createCart
  rw [huser]
  dsimp only
  rw [hec]
  dsimp only
  cases hd : findDisabledCart db u with
  | some dc =>
    dsimp only
    refine ⟨rfl, rfl, rfl, rfl, ?_⟩
    have hsome : (findAssoc u db.carts).isSome := by
      rw [findDisabledCart_findAssoc hd]; rfl
    rw [findAssoc_replaceAssoc_self hsome]
    rfl
  | none =>
    dsimp only
    refine ⟨rfl, rfl, rfl, rfl, ?_⟩
    rw [findAssoc_saveAssoc_self]
    rfl

def c10Cart : CartDoc :=
  { userId := 1, userEmail := some "ada@shop.io",
    items := [{ recordId := 10, amount := 1, price := 10, title := "LP", image := "" }],
    totalPrice := 10, enabled := false }

def c10Db : DB :=
  { users := [(1, c6User)], records := [(10, c5Rec)],
    carts := [(1, c10Cart)], orders := [] }

/-- Witness for `clearCart_without_enabled_cart`: a user whose only cart is
disabled (and still holds a stale item). -/
theorem clearCart_without_enabled_cart_witness :
    ((clearCart c10Db 1).1.toOption.map (fun c => c.items)) = some [] ∧
    ((clearCart c10Db 1).1.toOption.map (fun c => c.totalPrice)) = some 0 ∧
    ((clearCart c10Db 1).1.toOption.map (fun c => c.enabled)) = some true ∧
    (clearCart c10Db 1).2.records = c10Db.records ∧
    findAssoc 1 (clearCart c10Db 1).2.carts = (clearCart c10Db 1).1.toOption :=
  clearCart_without_enabled_cart c10Db 1 c6User rfl
    (fun c hc => by cases hc; rfl)

/-! ## clearCart releases no stock (claim C7) -/

def c7Cart : CartDoc :=
  { userId := 1, userEmail := some "ada@shop.io",
    items := [{ recordId := 10, amount := 2, price := 10, title := "LP", image := "" }],
    totalPrice := 20, enabled := true }

def c7Db : DB :=
  { users := [(1, c6User)], records := [(10, c5Rec)],
    carts := [(1, c7Cart)], orders := [] }

/-- C7 evaluation at the failing input: clearing an enabled cart holding
`{P, amount: 2}` with `P.stock = 5` leaves `P.stock` at 5 — the release loop
executes `record.Stock += item.amount` against the deprecated, never-selected
`Stock` field, so the canonical `stock` field is not increased (the claim —
and §4.2 of the spec — require it to become 7).  The cart itself is emptied
and its total reset as claimed. -/
theorem clearCart_does_not_release_stock :
    ((findAssoc 10 (clearCart c7Db 1).2.records).map (fun rec => rec.stock)) = some 5 ∧
    ((clearCart c7Db 1).1.toOption.map (fun c => c.items)) = some [] ∧
    ((clearCart c7Db 1).1.toOption.map (fun c => c.totalPrice)) = some 0 := by
  refine ⟨?_, rfl, rfl⟩
  norm_num [clearCart, clearCartStockLoop, c7Db, c7Cart, c5Rec, findEnabledCart,
    findAssoc, replaceAssoc, cartItemsTotal]

/-! ## AddItem with failing cart persistence (claim C4) -/

def c4Db : DB :=
  { users := [(1, c6User)], records := [(10, c5Rec)], carts := [], orders := [] }

/-- C4 evaluation at the failing input: when the cart save rejects after the
stock decrement was saved (`AddItem` of 3 units against stock 5), the error
propagates with the record persisted at stock 2 and the carts collection
untouched — the reservation is NOT rolled back by a compensating `Release`,
leaving decremented stock with no corresponding cart line item. -/
theorem addItem_persist_failure_leaks_reserved_stock :
    (addItemToCartAux false c4Db 1 10 3 "ada@shop.io").1 =
        Except.error "Failed to save cart" ∧
    ((findAssoc 10 (addItemToCartAux false c4Db 1 10 3 "ada@shop.io").2.records).map
        (fun rec => rec.stock)) = some 2 ∧
    (addItemToCartAux false c4Db 1 10 3 "ada@shop.io").2.carts = c4Db.carts := by
  refine ⟨?_, ?_, ?_⟩ <;>
    norm_num [addItemToCartAux, c4Db, c5Rec, findAssoc, replaceAssoc,
      findOrCreateCartDoc, addItemToItems, findFirstItem, cartItemsTotal,
      round2, jsRound]

/-! ## Order conversion (claim C3) -/

def c3Rec2 : RecordDoc :=
  { title := "EP", imageRecord := "", price := 20, stock := 4, Stock := none }

def c3Cart : CartDoc :=
  { userId := 1, userEmail := some "ada@shop.io",
    items :=
      [{ recordId := 10, amount := 2, price := 10, title := "LP", image := "" },
       { recordId := 11, amount := 1, price := 20, title := "EP", image := "" }],
    totalPrice := 40, enabled := true }

def c3Db : DB :=
  { users := [(1, c6User)],
    records := [(10, c5Rec), (11, c3Rec2)],
    carts := [(1, c3Cart)], orders := [] }

def c3Order : OrderDoc :=
  { userId := 1, userEmail := "ada@shop.io",
    items :=
      [{ recordId := 10, amount := 2, price := 10, title := "LP", image := "" },
       { recordId := 11, amount := 1, price := 20, title := "EP", image := "" }],
    total := 40, paymentMethod := "Credit Card" }

/-- C3 evaluation at the failing input: converting a 2-item cart with total 40
creates exactly the snapshot order (items and total copied from the
pre-conversion cart) and empties the source cart without touching any
product's stock — but the cart ends up ENABLED, not disabled: the
controller's post-creation `clearCart` finds no enabled cart (the order
service just disabled it), falls through to `createCart`, and re-enables the
disabled cart.  The claim (and §4.3 of the spec) require the cart to be
disabled afterwards. -/
theorem order_conversion_leaves_cart_reenabled :
    (ordersControllerCreateOrder c3Db "ada@shop.io" "Credit Card").1 =
        Except.ok c3Order ∧
    (ordersControllerCreateOrder c3Db "ada@shop.io" "Credit Card").2.orders =
        [c3Order] ∧
    ((findAssoc 1 (ordersControllerCreateOrder c3Db "ada@shop.io" "Credit Card").2.carts).map
        (fun c => c.items)) = some [] ∧
    ((findAssoc 1 (ordersControllerCreateOrder c3Db "ada@shop.io" "Credit Card").2.carts).map
        (fun c => c.enabled)) = some true ∧
    (ordersControllerCreateOrder c3Db "ada@shop.io" "Credit Card").2.records =
        c3Db.records := by
  refine ⟨?_, ?_, ?_, ?_, ?_⟩ <;>
    norm_num [ordersControllerCreateOrder, findUserByEmail, findUserByEmail.go,
      getCartByUserId, findEnabledCart, findDisabledCart, findAssoc,
      orderCreateOrder, clearCart, createCart, clearCartStockLoop,
      replaceAssoc, saveAssoc, cartItemsTotal, c3Db, c3Cart, c3Order, c3Rec2,
      c5Rec, c6User, List.isEmpty]

/-! ## Round-trip AddItem / RemoveItem (claim C9) -/

theorem findOrCreateCartDoc_enabled (db : DB) (u : Nat) (e : String) :
    (findOrCreateCartDoc db u e).enabled = true := by
  unfold findOrCreateCartDoc
  cases hf : findAssoc u db.carts with
  | none => rfl
  | some c =>
    dsimp only
    by_cases hen : c.enabled
    · rw [if_pos hen]; exact hen
    · rw [if_neg hen]

theorem findEnabledCart_eq_some {db : DB} {u : Nat} {c : CartDoc}
    (hf : findAssoc u db.carts = some c) (hen : c.enabled = true) :
    findEnabledCart db u = some c := by
  unfold findEnabledCart
  rw [hf]
  dsimp only
  rw [if_pos hen]

theorem addItemToCartAux_ok_eq (pok : Bool) (db : DB) (u r : Nat) (a : Rat)
    (e : String) {rec : RecordDoc} (hrec : findAssoc r db.records = some rec)
    (hge : ¬ rec.stock < a) :
    addItemToCartAux pok db u r a e =
      (let cart0 := findOrCreateCartDoc db u e
       let items := addItemToItems r a rec cart0.items
       let cart1 : CartDoc :=
         { cart0 with items := items, totalPrice := round2 (cartItemsTotal items) }
       let dbr : DB :=
         { db with records := replaceAssoc r { rec with stock := rec.stock - a } db.records }
       if pok then (Except.ok cart1, { dbr with carts := saveAssoc u cart1 dbr.carts })
       else (Except.error "Failed to save cart", dbr)) := by
  unfold addItemToCartAux
  rw [hrec]
  dsimp only
  rw [if_neg hge]

theorem removeItemFromCartByEmail_ok_eq (db : DB) (email : String) (r : Nat)
    (a : Rat) {u : Nat} {user : UserDoc} {cart : CartDoc} {item : CartItem}
    (huser : findUserByEmail db email = some (u, user))
    (hcart : findEnabledCart db u = some cart)
    (hitem : findFirstItem r cart.items = some item)
    (hge : ¬ item.amount < a) :
    removeItemFromCartByEmail db email r a =
      (let dbr :=
         match findAssoc r db.records with
         | some record =>
           { db with records :=
               replaceAssoc r { record with stock := record.stock + a } db.records }
         | none => db
       let items := removeAmountFromFirst r a cart.items
       let cart1 : CartDoc := { cart with items := items, totalPrice := cartItemsTotal items }
       (Except.ok cart1, { dbr with carts := replaceAssoc u cart1 dbr.carts })) := by
  unfold removeItemFromCartByEmail
  rw [huser]
  dsimp only
  rw [hcart]
  dsimp only
  rw [hitem]
  dsimp only
  rw [if_neg hge]

theorem findFirstItem_append_self {r : Nat} {l : List CartItem} {it : CartItem}
    (h : findFirstItem r l = none) (hit : it.recordId = r) :
    findFirstItem r (l ++ [it]) = some it := by
  induction l with
  | nil => simp only [List.nil_append, findFirstItem, if_pos hit]
  | cons x rest ih =>
    simp only [findFirstItem] at h
    split at h
    · cases h
    · next hne =>
      simp only [List.cons_append, findFirstItem, if_neg hne]
      exact ih h

theorem removeAmountFromFirst_append_self {r : Nat} {a : Rat} {l : List CartItem}
    {it : CartItem} (h : findFirstItem r l = none) (hit : it.recordId = r)
    (ha : it.amount = a) :
    removeAmountFromFirst r a (l ++ [it]) = l := by
  induction l with
  | nil => simp only [List.nil_append, removeAmountFromFirst, if_pos hit, if_pos ha]
  | cons x rest ih =>
    simp only [findFirstItem] at h
    split at h
    · cases h
    · next hne =>
      simp only [List.cons_append, removeAmountFromFirst, if_neg hne]
      exact congrArg (fun l => x :: l) (ih h)

/-- The fresh line item `addItemToCart` pushes when no line exists. -/
def newCartItem (recordId : Nat) (amount : Rat) (rec : RecordDoc) : CartItem :=
  { recordId := recordId, amount := amount, price := rec.price,
    title := rec.title, image := rec.imageRecord }

/-- The cart `addItemToCart` saves on the no-existing-line path. -/
def addItemResultCart (db : DB) (u r : Nat) (n : Rat) (e : String)
    (rec : RecordDoc) : CartDoc :=
  { findOrCreateCartDoc db u e with
    items := (findOrCreateCartDoc db u e).items ++ [newCartItem r n rec],
    totalPrice :=
      round2 (cartItemsTotal
        ((findOrCreateCartDoc db u e).items ++ [newCartItem r n rec])) }

/-- The persisted state after a successful `addItemToCart` on the
no-existing-line path. -/
def addItemResultDB (db : DB) (u r : Nat) (n : Rat) (e : String)
    (rec : RecordDoc) : DB :=
  { db with
    records := replaceAssoc r { rec with stock := rec.stock - n } db.records,
    carts := saveAssoc u (addItemResultCart db u r n e rec) db.carts }

/-- C9: for a user resolvable by email, a product with sufficient stock, an
amount of at least 1 and a cart with no existing line for the product,
`AddItem` followed by `RemoveItem` of the same amount removes the line item
entirely and restores the product's stock to its pre-add value. -/
theorem addItem_removeItem_roundtrip (db : DB) (u : Nat) (email : String)
    (user : UserDoc) (r : Nat) (n : Rat) (rec : RecordDoc)
    (huser : findUserByEmail db email = some (u, user))
    (hrec : findAssoc r db.records = some rec)
    (hn : 1 ≤ n) (hstock : n ≤ rec.stock)
    (hnoline : findFirstItem r (findOrCreateCartDoc db u email).items = none) :
    ((removeItemFromCartByEmail (addItemToCart db u r n email).2 email r n).1.toOption.map
        (fun c => findFirstItem r c.items)) = some none ∧
    ((findAssoc r
        (removeItemFromCartByEmail (addItemToCart db u r n email).2 email r n).2.records).map
        (fun p => p.stock)) = some rec.stock := by
  have hge : ¬ rec.stock < n := not_lt.mpr hstock
  have hitems : addItemToItems r n rec (findOrCreateCartDoc db u email).items =
      (findOrCreateCartDoc db u email).items ++ [newCartItem r n rec] := by
    unfold addItemToItems
    rw [hnoline]
    rfl
  have e1 : (addItemToCart db u r n email).2 = addItemResultDB db u r n email rec := by
    rw [show addItemToCart db u r n email = addItemToCartAux true db u r n email from rfl,
        addItemToCartAux_ok_eq true db u r n email hrec hge]
    simp only [hitems, addItemResultDB, addItemResultCart, if_true]
  have hu1 : findUserByEmail (addItemResultDB db u r n email rec) email =
      some (u, user) := huser
  have hc1 : findEnabledCart (addItemResultDB db u r n email rec) u =
      some (addItemResultCart db u r n email rec) :=
    findEnabledCart_eq_some (findAssoc_saveAssoc_self u _ db.carts)
      (findOrCreateCartDoc_enabled db u email)
  have hfi : findFirstItem r (addItemResultCart db u r n email rec).items =
      some (newCartItem r n rec) :=
    findFirstItem_append_self hnoline rfl
  have hge2 : ¬ (newCartItem r n rec).amount < n := not_lt.mpr (le_refl n)
  have h2 := removeItemFromCartByEmail_ok_eq (addItemResultDB db u r n email rec)
    email r n hu1 hc1 hfi hge2
  have hfr : findAssoc r (addItemResultDB db u r n email rec).records =
      some { rec with stock := rec.stock - n } :=
    findAssoc_replaceAssoc_self (by rw [hrec]; rfl)
  rw [e1, h2]
  constructor
  · simp only [hfr, Except.toOption, Option.map_some', addItemResultCart]
    rw [removeAmountFromFirst_append_self hnoline
        (show (newCartItem r n rec).recordId = r from rfl)
        (show (newCartItem r n rec).amount = n from rfl),
      hnoline]
  · have hsome2 : (findAssoc r (addItemResultDB db u r n email rec).records).isSome := by
      rw [hfr]; rfl
    simp only [hfr, findAssoc_replaceAssoc_self hsome2, Option.map_some']
    congr 1
    ring

/-- Witness for `addItem_removeItem_roundtrip`: stock 5, AddItem of 3 then
RemoveItem of 3 for the same user and product. -/
theorem addItem_removeItem_roundtrip_witness :
    ((removeItemFromCartByEmail (addItemToCart c4Db 1 10 3 "ada@shop.io").2
        "ada@shop.io" 10 3).1.toOption.map
        (fun c => findFirstItem 10 c.items)) = some none ∧
    ((findAssoc 10
        (removeItemFromCartByEmail (addItemToCart c4Db 1 10 3 "ada@shop.io").2
          "ada@shop.io" 10 3).2.records).map
        (fun p => p.stock)) = some c5Rec.stock :=
  addItem_removeItem_roundtrip c4Db 1 "ada@shop.io" c6User 10 3 c5Rec rfl rfl
    (by decide) (by decide) rfl
